import Mathlib

/-!
Verification development for the siyuan_telegram2inbox bot.

Texts are modelled as lists of unicode characters (`Str`); the Python
`len`, slicing, `strip`, `startswith` and space-join operations become the
corresponding list operations.  Environment variables, the curl
subprocess, the web fetch and the OpenAI call are external
collaborators, modelled as explicit inputs (`Collab`).
-/

abbrev Str := List Char

/-- The Python whitespace test, shared by `str.strip`, `str.split` and the
regex class of non-whitespace characters. -/
def isSpaceChar (c : Char) : Bool := c.isWhitespace

/-- Drop leading whitespace (left part of Python `str.strip`). -/
def stripLeft (s : Str) : Str := s.dropWhile isSpaceChar

/-- Drop trailing whitespace. -/
def stripRight (s : Str) : Str := (stripLeft s.reverse).reverse

/-- Python `str.strip()`: remove leading and trailing whitespace. -/
def pyStrip (s : Str) : Str := stripRight (stripLeft s)

/-- Python `str.startswith(p)` (case sensitive). -/
def beginsWith : Str → Str → Bool
  | [], _ => true
  | _ :: _, [] => false
  | p :: ps, c :: cs => if p = c then beginsWith ps cs else false

/-- The literal characters of `http://`. -/
def httpPat : Str := "http://".toList

/-- The literal characters of `https://`. -/
def httpsPat : Str := "https://".toList

/-- Case-insensitive literal match: consume the pattern `p` (given in
lowercase) from the front of `s`, returning the remainder.  Models the
`re.IGNORECASE` matching of the scheme part of the URL regex. -/
def matchCaseless : Str → Str → Option Str
  | [], s => some s
  | _ :: _, [] => none
  | p :: ps, c :: cs => if c.toLower = p then matchCaseless ps cs else none

/-- Does the list start with a (possibly empty-preceded) non-space char? -/
def headNS : Str → Bool
  | [] => false
  | d :: _ => !isSpaceChar d

/-- Having consumed at least one non-space character of the `[^\s]+` run,
scan across further non-space characters for a literal dot followed by a
non-space character.  This is the backtracking semantics of
`[^\s]+\.[^\s]+` after its first mandatory character. -/
def scanDot : Str → Bool
  | [] => false
  | c :: rest =>
    if isSpaceChar c then false
    else if c = '.' ∧ headNS rest = true then true
    else scanDot rest

/-- Matcher for `[^\s]+\.[^\s]+`: at least one non-space character, then a
dot, then at least one non-space character, all in one non-space run. -/
def dotPattern : Str → Bool
  | [] => false
  | c :: rest => !isSpaceChar c && scanDot rest

/-- Matcher for the source regex `^https?://[^\s]+\.[^\s]+` with
`re.IGNORECASE` (functions.py, `is_url`).  The two expansions of `https?`
are mutually exclusive on any subject string, so trying `http://` first is
equivalent to the greedy `s?`. -/
def regexHttpMatch (s : Str) : Bool :=
  match matchCaseless httpPat s with
  | some rest => dotPattern rest
  | none =>
    match matchCaseless httpsPat s with
    | some rest => dotPattern rest
    | none => false

/-- functions.py `is_url`: the regex match on the stripped text, or the
case-sensitive startswith fallback for the two scheme literals, also on the
stripped text.  Pure and total by construction. -/
def is_url (text : Str) : Bool :=
  regexHttpMatch (pyStrip text) ||
    (beginsWith httpPat (pyStrip text) || beginsWith httpsPat (pyStrip text))

/-- functions_ai.py `MAX_CONTENT_LENGTH`. -/
def MAX_CONTENT_LENGTH : Nat := 2048

/-- functions_ai.py `truncate_for_openai`: texts longer than 2048
characters become their first 2045 characters followed by `...`. -/
def truncate_for_openai (text : Str) : Str :=
  if text.length ≤ MAX_CONTENT_LENGTH then text
  else text.take (MAX_CONTENT_LENGTH - 3) ++ "...".toList

/-- The truncation applied to fetched page text inside
`scrape_url_content` (functions_ai.py lines 96-99): same cap, written with
the condition the other way around. -/
def scrape_cap (text : Str) : Str :=
  if text.length > MAX_CONTENT_LENGTH then text.take (MAX_CONTENT_LENGTH - 3) ++ "...".toList
  else text

/-- The Python space-join of the argument list. -/
def joinSpace : List Str → Str
  | [] => []
  | [a] => a
  | a :: rest => a ++ ' ' :: joinSpace rest

/-- Accumulator-based whitespace tokenizer (Python `str.split()` with no
separator argument: runs of whitespace separate tokens, no empty tokens). -/
def splitAux : Str → Str → List Str
  | [], acc => if acc.isEmpty then [] else [acc.reverse]
  | c :: cs, acc =>
    if isSpaceChar c then
      if acc.isEmpty then splitAux cs [] else acc.reverse :: splitAux cs []
    else splitAux cs (c :: acc)

/-- Modelled from the spec: the command framework (python-telegram-bot)
delivers `context.args`, the whitespace-separated tokens of the message
text after the `/s` command; this splitting code is not part of the
repository, so it is modelled here as Python `str.split()` whitespace
tokenization. -/
def argTokens (raw : Str) : List Str := splitAux raw []

/-- Environment variables read by the pipeline.  The Python falsiness of
`os.getenv` results makes `none` and the empty string equivalent. -/
structure Env where
  SIYUAN_TOKEN : Option Str
  OPENAI_TOKEN : Option Str

/-- The Python `if not token` check on an `os.getenv` result: missing or
empty. -/
def credentialMissing : Option Str → Bool
  | none => true
  | some k => k.isEmpty

/-- Outcome of one `subprocess.run` of curl: either the process ran and
produced a return code with stdout and stderr, or `subprocess.run`
itself raised. -/
inductive CurlRun where
  | completed (returncode : Int) (stdout stderr : Str)
  | raised (msg : Str)

/-- Outcome of the OpenAI chat call followed by `json.loads` and the
`result['h']` access that `generate_summary` performs inside its `try`:
`parsed h s?` is a JSON object containing key `h` (key `s` present or
absent — nothing in `generate_summary` checks it); `failed` covers an API
exception, a JSON parse error, a non-object result, or a missing `h` key
(all caught by the same `except`). -/
inductive AICall where
  | parsed (h : Str) (s : Option Str)
  | failed (msg : Str)

/-- All external collaborators of one `/s` invocation, plus the values
that the code reads from the ambient environment (timestamps, hostname). -/
structure Collab where
  env : Env
  now_date : Str
  now_minute : Str
  hostname : Str
  fetch : Str → Bool × Str
  ai : Str → Bool → AICall
  curl : Str → Str → CurlRun

/-- Calls recorded while running `generate_summary`. -/
structure GSTrace where
  fetchCalls : Nat
  aiCalls : Nat
  aiInput : Option (Str × Bool)
  deriving Repr, DecidableEq

/-- The non-fetch part of functions_ai.py `generate_summary` (from the
`get_openai_client` call onwards): missing/empty `OPENAI_TOKEN` is an
immediate failure; otherwise the text is truncated and the OpenAI
collaborator is consulted once. -/
def gs_core (co : Collab) (text : Str) (is_scraped : Bool) :
    ((Str × Option Str) ⊕ Str) × GSTrace :=
  if credentialMissing co.env.OPENAI_TOKEN then
    (Sum.inr "OpenAI API key not configured".toList, ⟨0, 0, none⟩)
  else
    match co.ai (truncate_for_openai text) is_scraped with
    | AICall.parsed h s =>
      (Sum.inl (h, s), ⟨0, 1, some (truncate_for_openai text, is_scraped)⟩)
    | AICall.failed m =>
      (Sum.inr m, ⟨0, 1, some (truncate_for_openai text, is_scraped)⟩)

/-- functions_ai.py `generate_summary`.  When `is_scraped` is false and
the stripped text is a URL, the fetch collaborator runs once; on success
the code re-enters itself with the fetched content and is_scraped set,
which skips the fetch guard, so that call is exactly `gs_core`; on
failure the original text is kept and control falls through to the same
summarization tail.  The result value is `Sum.inl (headline, s?)` on
success (`(True, result)` in the source) and `Sum.inr error` on failure. -/
def generate_summary (co : Collab) (text : Str) (is_scraped : Bool) :
    ((Str × Option Str) ⊕ Str) × GSTrace :=
  if !is_scraped && is_url (pyStrip text) then
    match co.fetch (pyStrip text) with
    | (true, content) =>
      ((gs_core co content true).1,
       { (gs_core co content true).2 with
           fetchCalls := (gs_core co content true).2.fetchCalls + 1 })
    | (false, _) =>
      ((gs_core co text false).1,
       { (gs_core co text false).2 with
           fetchCalls := (gs_core co text false).2.fetchCalls + 1 })
  else gs_core co text is_scraped

/-- The literal self-recursion of `generate_summary`, made structural with
fuel: `generate_summary(content, is_scraped=True)` after a successful
fetch is the recursive call.  `none` means the fuel ran out before the
recursion bottomed out. -/
def generate_summary_rec : Nat → Collab → Str → Bool →
    Option (((Str × Option Str) ⊕ Str) × GSTrace)
  | 0, _, _, _ => none
  | n + 1, co, text, is_scraped =>
    if !is_scraped && is_url (pyStrip text) then
      match co.fetch (pyStrip text) with
      | (true, content) =>
        (generate_summary_rec n co content true).map
          (fun r => (r.1, { r.2 with fetchCalls := r.2.fetchCalls + 1 }))
      | (false, _) =>
        some ((gs_core co text false).1,
          { (gs_core co text false).2 with
              fetchCalls := (gs_core co text false).2.fetchCalls + 1 })
    else some (gs_core co text is_scraped)

/-- functions_siyuan.py `push_to_siyuan`, title-defaulting step: `None`
or empty titles become `telegram <timestamp>`. -/
def pushedTitle (now_minute : Str) (title : Option Str) : Str :=
  match title with
  | none => "telegram ".toList ++ now_minute
  | some s => if s.isEmpty then "telegram ".toList ++ now_minute else s

/-- functions_siyuan.py `push_to_siyuan`, the part after the curl
subprocess ran or raised: return code 0 is success, anything else is a
failure carrying stderr; an exception from `subprocess.run` is a failure
carrying the exception text.  The stdout (the remote service response
body) is never inspected. -/
def push_given_run : CurlRun → Bool × Str
  | CurlRun.completed rc _ stderr =>
    if rc = 0 then (true, "Message successfully sent to Siyuan inbox".toList)
    else (false, "Failed to send message: ".toList ++ stderr)
  | CurlRun.raised m => (false, "Failed to execute curl command: ".toList ++ m)

/-- functions_siyuan.py `push_to_siyuan`: missing/empty `SIYUAN_TOKEN`
fails before any transport activity; otherwise the curl collaborator is
invoked exactly once with the defaulted title and the content.  The
second component records the payload handed to curl (`none` when the
credential check failed first). -/
def push_to_siyuan (co : Collab) (content : Str) (title : Option Str) :
    (Bool × Str) × Option (Str × Str) :=
  if credentialMissing co.env.SIYUAN_TOKEN then
    ((false, "SIYUAN_TOKEN not found in environment variables".toList), none)
  else
    (push_given_run (co.curl (pushedTitle co.now_minute title) content),
     some (pushedTitle co.now_minute title, content))

/-- functions.py `format_siyuan_content`: URL bookmark template when the
stripped content is a URL, fenced text template otherwise. -/
def format_siyuan_content (ts : Str) (content user hostname : Str) : Str :=
  if is_url (pyStrip content) then
    "## URL Bookmark\n**SUBMIT:** ".toList ++ ts ++ "\n**BY:** ".toList ++ user
      ++ '@' :: hostname ++ "\n\n[".toList ++ pyStrip content ++ "](".toList
      ++ pyStrip content ++ ")\n".toList
  else
    "## input via telegram\n**SUBMIT:** ".toList ++ ts ++ "\n**BY:** ".toList ++ user
      ++ '@' :: hostname ++ "\n\n```\n".toList ++ content ++ "\n```".toList

/-- functions_siyuan.py `process_telegram_message`: format the content,
pick a `URL: ` title when the stripped text starts with a scheme and a
`telegram <timestamp>` title otherwise, then push.  The second component
records the `(content, title)` arguments given to `push_to_siyuan`. -/
def urlTitleOf (m : Str) : Str :=
  "URL: ".toList ++ (pyStrip m).take 30 ++
    (if (pyStrip m).length > 30 then "...".toList else [])

/-- The title `process_telegram_message` generates: a `URL: ` title from
the first 30 stripped characters when the stripped text starts with a
scheme, a `telegram <timestamp>` title otherwise. -/
def ptmTitle (co : Collab) (message_text : Str) : Str :=
  if beginsWith httpPat (pyStrip message_text)
      || beginsWith httpsPat (pyStrip message_text) then
    urlTitleOf message_text
  else "telegram ".toList ++ co.now_minute

def process_telegram_message (co : Collab) (message_text user hostname : Str) :
    (Bool × Str) × (Str × Str) :=
  ((push_to_siyuan co
      (format_siyuan_content co.now_minute message_text user hostname)
      (some (ptmTitle co message_text))).1,
   (format_siyuan_content co.now_minute message_text user hostname,
    ptmTitle co message_text))

/-- The user-visible replies `save_command` can emit, abstracting the
configurable reply texts: the missing-content prompt, the fixed failure
text, the success text templated with a title, and the plain success
text. -/
inductive Reply where
  | missingContent
  | sendFailed
  | successWithTitle (title : Str)
  | successPlain
  deriving Repr, DecidableEq

/-- Python truthiness of an optional string variable: set and non-empty. -/
def truthy : Option Str → Bool
  | none => false
  | some s => !s.isEmpty

/-- The reply selection at the end of `save_command` (functions.py lines
376-400): failure text on failure, else template with `summary_text` when
AI was used and the headline is truthy, else template with a truthy
`custom_title`, else the plain success text. -/
def notifyReply (success ai_used : Bool) (st ct : Option Str) : Reply :=
  if success = false then Reply.sendFailed
  else if ai_used = true ∧ truthy st = true then Reply.successWithTitle (st.getD [])
  else if truthy ct = true then Reply.successWithTitle (ct.getD [])
  else Reply.successPlain

/-- Everything observable about one `save_command` invocation: the
replies sent (in order), whether an uncaught exception ended the handler,
the notifier-relevant local variables, the collaborator call counts, the
`(content, title)` arguments handed to `push_to_siyuan`, and whether
`process_telegram_message` was the delegate. -/
structure SaveTrace where
  replies : List Reply
  crashed : Bool
  success : Bool
  ai_used : Bool
  summary_text : Option Str
  custom_title : Option Str
  gsCalls : Nat
  aiCalls : Nat
  fetchCalls : Nat
  pushArgs : Option (Str × Str)
  ptmCalled : Bool
  deriving Repr, DecidableEq

/-- Build the terminal trace of a completed (non-crashed) run. -/
def mkTrace (success ai_used : Bool) (st ct : Option Str) (g a f : Nat)
    (pa : Option (Str × Str)) (ptm : Bool) : SaveTrace :=
  { replies := [notifyReply success ai_used st ct], crashed := false,
    success := success, ai_used := ai_used, summary_text := st,
    custom_title := ct, gsCalls := g, aiCalls := a, fetchCalls := f,
    pushArgs := pa, ptmCalled := ptm }

/-- The trace of the uncaught `KeyError` raised while building the
AI-composite body: `summary_result['s']` is evaluated outside any `try`
(functions.py line 337), so when the parsed summary lacks the `s` key the
handler dies before pushing or replying. -/
def crashTrace (h : Str) (t : GSTrace) : SaveTrace :=
  { replies := [], crashed := true, success := false, ai_used := true,
    summary_text := some h, custom_title := some h, gsCalls := 1,
    aiCalls := t.aiCalls, fetchCalls := t.fetchCalls, pushArgs := none,
    ptmCalled := false }

/-- The URL branch of `save_command` used when no AI summary is available
(functions.py lines 350-358 and 364-371): plain formatter, `URL: ` title
from the first 30 stripped characters, `custom_title = "URL bookmark"`. -/
def urlSaveBranch (co : Collab) (m user : Str) (g a f : Nat) : SaveTrace :=
  mkTrace
    (push_to_siyuan co (format_siyuan_content co.now_minute m user co.hostname)
      (some (urlTitleOf m))).1.1
    false none (some "URL bookmark".toList) g a f
    (some (format_siyuan_content co.now_minute m user co.hostname, urlTitleOf m))
    false

/-- The non-URL fallback branch of `save_command`: delegate to
`process_telegram_message` (functions.py lines 360-361 and 372-374). -/
def ptmSaveBranch (co : Collab) (m user : Str) (g a f : Nat) : SaveTrace :=
  mkTrace (process_telegram_message co m user co.hostname).1.1 false none none
    g a f (some (process_telegram_message co m user co.hostname).2) true

/-- The AI-composite branch of `save_command` (functions.py lines
320-347), entered when `generate_summary` succeeded and the parsed JSON
carried both keys: title `<date> <headline>`, body with headline, summary
and metadata block, display content as a markdown link for URLs. -/
def aiBody (co : Collab) (m user h s : Str) (isu : Bool) : Str :=
  "## ".toList ++ h ++ '\n' :: s ++ "\n\n## input via telegram\n**SUBMIT:** ".toList
    ++ co.now_minute ++ "\n**BY:** ".toList ++ user ++ '@' :: co.hostname
    ++ "\n\n".toList
    ++ (if isu then '[' :: pyStrip m ++ ']' :: '(' :: pyStrip m ++ ")".toList else m)
    ++ "\n".toList

def aiSaveBranch (co : Collab) (m user h s : Str) (isu : Bool) (a f : Nat) :
    SaveTrace :=
  mkTrace
    (push_to_siyuan co (aiBody co m user h s isu)
      (some (co.now_date ++ ' ' :: h))).1.1
    true (some h) (some h) 1 a f
    (some (aiBody co m user h s isu, co.now_date ++ ' ' :: h)) false

/-- functions.py `save_command` after the empty-args check: classify the
joined text, run enrichment when it is long or a URL, and dispatch to the
branch the source selects. -/
def save_pipeline (co : Collab) (m user : Str) : SaveTrace :=
  if m.length > 128 || is_url m then
    match generate_summary co m false with
    | (Sum.inl (h, some s), tr) =>
      aiSaveBranch co m user h s (is_url m) tr.aiCalls tr.fetchCalls
    | (Sum.inl (h, none), tr) => crashTrace h tr
    | (Sum.inr _, tr) =>
      if is_url m then urlSaveBranch co m user 1 tr.aiCalls tr.fetchCalls
      else ptmSaveBranch co m user 1 tr.aiCalls tr.fetchCalls
  else
    if is_url m then urlSaveBranch co m user 0 0 0
    else ptmSaveBranch co m user 0 0 0

/-- functions.py `save_command`: empty `context.args` prompts for content
and stops; otherwise the pipeline runs on the space-join of `context.args`. -/
def save_command (co : Collab) (args : List Str) (user : Str) : SaveTrace :=
  if args = [] then
    { replies := [Reply.missingContent], crashed := false, success := false,
      ai_used := false, summary_text := none, custom_title := none,
      gsCalls := 0, aiCalls := 0, fetchCalls := 0, pushArgs := none,
      ptmCalled := false }
  else save_pipeline co (joinSpace args) user

/-- A collaborator assignment with both credentials present, a failing
fetch, an AI call that parses to a JSON object with only the `h` key, and
a curl subprocess exiting 0. -/
def coKeyless : Collab :=
  { env := { SIYUAN_TOKEN := some "t".toList, OPENAI_TOKEN := some "k".toList },
    now_date := [], now_minute := [], hostname := [],
    fetch := fun _ => (false, []),
    ai := fun _ _ => AICall.parsed "X".toList none,
    curl := fun _ _ => CurlRun.completed 0 [] [] }

/-- A collaborator assignment with the inbox credential present, the AI
credential absent, a failing fetch, and a curl subprocess exiting 0. -/
def coNoAI : Collab :=
  { env := { SIYUAN_TOKEN := some "t".toList, OPENAI_TOKEN := none },
    now_date := [], now_minute := [], hostname := [],
    fetch := fun _ => (false, []),
    ai := fun _ _ => AICall.failed [],
    curl := fun _ _ => CurlRun.completed 0 [] [] }

/-- A collaborator assignment whose curl subprocess exits with return
code 1 (delivery failure), with the AI credential absent. -/
def coFail : Collab :=
  { env := { SIYUAN_TOKEN := some "t".toList, OPENAI_TOKEN := none },
    now_date := [], now_minute := [], hostname := [],
    fetch := fun _ => (false, []),
    ai := fun _ _ => AICall.failed [],
    curl := fun _ _ => CurlRun.completed 1 [] "boom".toList }

/-- Declarative reading of `[^\s]+\.[^\s]+`: a non-empty run of
non-whitespace characters, a literal dot, and a following non-whitespace
character. -/
def dotSpec (rest : Str) : Prop :=
  ∃ a d b, rest = a ++ '.' :: d :: b ∧ a ≠ [] ∧
    (∀ c ∈ a, isSpaceChar c = false) ∧ isSpaceChar d = false

/-- Claim C5: both truncations (before the summarizer call and on fetched
URL content) return at most 2048 characters; an input longer than 2048
characters yields exactly 2048 characters ending in `...`. -/
theorem truncate_bound (t : Str) :
    (truncate_for_openai t).length ≤ 2048 ∧
    scrape_cap t = truncate_for_openai t ∧
    (2048 < t.length →
      (truncate_for_openai t).length = 2048 ∧
      ∃ p, truncate_for_openai t = p ++ "...".toList) := by
  have h3 : ("...".toList).length = 3 := by decide
  by_cases h : t.length ≤ MAX_CONTENT_LENGTH
  · have h2 : ¬ (MAX_CONTENT_LENGTH < t.length) := Nat.not_lt.mpr h
    refine ⟨?_, ?_, ?_⟩
    · unfold truncate_for_openai
      rw [if_pos h]
      exact h
    · simp [truncate_for_openai, scrape_cap, h, h2]
    · intro hlt
      exact absurd hlt (by simpa [MAX_CONTENT_LENGTH] using h2)
  · have h2 : MAX_CONTENT_LENGTH < t.length := Nat.lt_of_not_le h
    have hlen : (truncate_for_openai t).length = 2048 := by
      simp only [truncate_for_openai, if_neg h]
      rw [List.length_append, List.length_take, h3]
      simp only [MAX_CONTENT_LENGTH] at h2 ⊢
      omega
    refine ⟨le_of_eq hlen, ?_, fun _ => ⟨hlen, ?_⟩⟩
    · simp [truncate_for_openai, scrape_cap, h, h2]
    · exact ⟨t.take (MAX_CONTENT_LENGTH - 3), by simp [truncate_for_openai, if_neg h]⟩

/-- Witness for `truncate_bound` at a concrete 2049-character input. -/
theorem truncate_bound_witness :
    2048 < (List.replicate 2049 'a').length ∧
    (truncate_for_openai (List.replicate 2049 'a')).length = 2048 ∧
    ∃ p, truncate_for_openai (List.replicate 2049 'a') = p ++ "...".toList :=
  ⟨by rw [List.length_replicate]; omega,
    ((truncate_bound (List.replicate 2049 'a')).2.2
      (by rw [List.length_replicate]; omega)).1,
    ((truncate_bound (List.replicate 2049 'a')).2.2
      (by rw [List.length_replicate]; omega)).2⟩

/-- Claim C2: the forwarder performs a single attempt and never raises: a
missing/empty `SIYUAN_TOKEN` fails before any transport activity with a
human-readable diagnostic; otherwise success holds exactly when the curl
subprocess completes with return code 0; the decision never looks at the
remote response body (the curl stdout), and a raised subprocess exception
is normalized into a failure diagnostic. -/
theorem push_forward_contract (co : Collab) (content : Str) (title : Option Str) :
    (credentialMissing co.env.SIYUAN_TOKEN = true →
      push_to_siyuan co content title =
        ((false, "SIYUAN_TOKEN not found in environment variables".toList), none)) ∧
    (credentialMissing co.env.SIYUAN_TOKEN = false →
      ((push_to_siyuan co content title).1.1 = true ↔
        ∃ out err, co.curl (pushedTitle co.now_minute title) content =
          CurlRun.completed 0 out err)) ∧
    (∀ rc out outAlt err,
      push_given_run (CurlRun.completed rc out err) =
        push_given_run (CurlRun.completed rc outAlt err)) ∧
    (∀ m, push_given_run (CurlRun.raised m) =
      (false, "Failed to execute curl command: ".toList ++ m)) := by
  refine ⟨fun hm => by simp [push_to_siyuan, hm], fun hm => ?_,
    fun rc out outAlt err => rfl, fun m => rfl⟩
  simp only [push_to_siyuan, hm, Bool.false_eq_true, if_false]
  cases hc : co.curl (pushedTitle co.now_minute title) content with
  | completed rc out err =>
    by_cases hrc : rc = 0
    · subst hrc
      simp only [push_given_run, if_pos rfl]
      exact ⟨fun _ => ⟨out, err, rfl⟩, fun _ => rfl⟩
    · simp only [push_given_run, if_neg hrc]
      constructor
      · intro hfalse
        simp at hfalse
      · rintro ⟨o, e, he⟩
        injection he with h1 h2 h3
        exact absurd h1 hrc
  | raised m =>
    simp only [push_given_run]
    constructor
    · intro hfalse
      simp at hfalse
    · rintro ⟨o, e, he⟩
      exact CurlRun.noConfusion he

/-- Witness for `push_forward_contract`: with the token present and a
curl exit of 0, the push succeeds. -/
theorem push_forward_contract_witness :
    credentialMissing coNoAI.env.SIYUAN_TOKEN = false ∧
    (push_to_siyuan coNoAI [] none).1.1 = true :=
  ⟨rfl, ((push_forward_contract coNoAI [] none).2.1 rfl).mpr ⟨[], [], rfl⟩⟩

theorem beginsWith_iff (p : Str) : ∀ s, beginsWith p s = true ↔ ∃ r, s = p ++ r := by
  induction p with
  | nil =>
    intro s
    simp only [beginsWith, List.nil_append, true_iff]
    exact ⟨s, rfl⟩
  | cons x ps ih =>
    intro s
    cases s with
    | nil =>
      have hL : beginsWith (x :: ps) ([] : Str) = false := by simp [beginsWith]
      rw [hL]
      refine iff_of_false (by simp) ?_
      rintro ⟨r, hr⟩
      exact List.noConfusion hr
    | cons c cs =>
      by_cases hx : x = c
      · subst hx
        have hL : beginsWith (x :: ps) (x :: cs) = beginsWith ps cs := by
          simp [beginsWith]
        rw [hL, ih cs]
        constructor
        · rintro ⟨r, rfl⟩
          exact ⟨r, rfl⟩
        · rintro ⟨r, hr⟩
          rw [List.cons_append] at hr
          injection hr with h1 h2
          exact ⟨r, h2⟩
      · have hL : beginsWith (x :: ps) (c :: cs) = false := by
          simp [beginsWith, hx]
        rw [hL]
        refine iff_of_false (by simp) ?_
        rintro ⟨r, hr⟩
        rw [List.cons_append] at hr
        injection hr with h1 h2
        exact hx h1.symm

theorem matchCaseless_iff (p : Str) :
    ∀ s r, matchCaseless p s = some r ↔
      ∃ pre, s = pre ++ r ∧ pre.map Char.toLower = p := by
  induction p with
  | nil =>
    intro s r
    simp only [matchCaseless, Option.some.injEq]
    constructor
    · rintro rfl
      exact ⟨[], rfl, rfl⟩
    · rintro ⟨pre, hs, hm⟩
      have hp : pre = [] := List.map_eq_nil_iff.mp hm
      subst hp
      simpa using hs
  | cons x ps ih =>
    intro s r
    cases s with
    | nil =>
      refine iff_of_false (by simp [matchCaseless]) ?_
      rintro ⟨pre, hs, hm⟩
      cases pre with
      | nil => simp at hm
      | cons a pre2 => exact List.noConfusion hs
    | cons c cs =>
      by_cases hx : c.toLower = x
      · have hL : matchCaseless (x :: ps) (c :: cs) = matchCaseless ps cs := by
          simp [matchCaseless, hx]
        rw [hL, ih cs r]
        constructor
        · rintro ⟨pre2, hcs, hm⟩
          exact ⟨c :: pre2, by simp [hcs], by simp [hm, hx]⟩
        · rintro ⟨pre, hs, hm⟩
          cases pre with
          | nil => simp at hm
          | cons a pre2 =>
            rw [List.cons_append] at hs
            injection hs with h1 h2
            rw [List.map_cons] at hm
            injection hm with h3 h4
            exact ⟨pre2, h2, h4⟩
      · have hL : matchCaseless (x :: ps) (c :: cs) = none := by
          simp [matchCaseless, hx]
        rw [hL]
        refine iff_of_false (by simp) ?_
        rintro ⟨pre, hs, hm⟩
        cases pre with
        | nil => simp at hm
        | cons a pre2 =>
          rw [List.cons_append] at hs
          injection hs with h1 h2
          rw [List.map_cons] at hm
          injection hm with h3 h4
          exact hx (h1 ▸ h3)

theorem scanDot_iff : ∀ s : Str, scanDot s = true ↔
    ∃ a d b, s = a ++ '.' :: d :: b ∧
      (∀ c ∈ a, isSpaceChar c = false) ∧ isSpaceChar d = false := by
  intro s
  induction s with
  | nil =>
    refine iff_of_false (by simp [scanDot]) ?_
    rintro ⟨a, d, b, hs, ha, hd⟩
    cases a with
    | nil => exact List.noConfusion hs
    | cons x a2 => exact List.noConfusion hs
  | cons c rest ih =>
    by_cases hc : isSpaceChar c = true
    · have hL : scanDot (c :: rest) = false := by simp [scanDot, hc]
      rw [hL]
      refine iff_of_false (by simp) ?_
      rintro ⟨a, d, b, hs, ha, hd⟩
      cases a with
      | nil =>
        injection hs with h1 h2
        rw [h1] at hc
        exact absurd hc (by decide)
      | cons x a2 =>
        rw [List.cons_append] at hs
        injection hs with h1 h2
        exact absurd (h1 ▸ hc) (by rw [ha x (by simp)]; decide)
    · have hcf : isSpaceChar c = false := by
        cases hcc : isSpaceChar c
        · rfl
        · exact absurd hcc hc
      by_cases hdot : c = '.' ∧ headNS rest = true
      · have hL : scanDot (c :: rest) = true := by
          rw [scanDot, if_neg (by simp [hcf]), if_pos hdot]
        rw [hL]
        refine iff_of_true rfl ?_
        obtain ⟨hceq, hh⟩ := hdot
        cases rest with
        | nil => exact absurd hh (by simp [headNS])
        | cons d b =>
          have hd : isSpaceChar d = false := by
            have : (!isSpaceChar d) = true := hh
            simpa using this
          exact ⟨[], d, b, by simp [hceq], by simp, hd⟩
      · have hL : scanDot (c :: rest) = scanDot rest := by
          rw [scanDot, if_neg (by simp [hcf]), if_neg hdot]
        rw [hL, ih]
        constructor
        · rintro ⟨a, d, b, hs, ha, hd⟩
          refine ⟨c :: a, d, b, by simp [hs], ?_, hd⟩
          intro y hy
          rcases List.mem_cons.mp hy with rfl | hy2
          · exact hcf
          · exact ha y hy2
        · rintro ⟨a, d, b, hs, ha, hd⟩
          cases a with
          | nil =>
            injection hs with h1 h2
            exfalso
            apply hdot
            refine ⟨h1, ?_⟩
            rw [h2]
            simp [headNS, hd]
          | cons x a2 =>
            rw [List.cons_append] at hs
            injection hs with h1 h2
            exact ⟨a2, d, b, h2, fun y hy => ha y (by simp [hy]), hd⟩

theorem dotPattern_iff (s : Str) : dotPattern s = true ↔ dotSpec s := by
  cases s with
  | nil =>
    refine iff_of_false (by simp [dotPattern]) ?_
    rintro ⟨a, d, b, hs, hne, ha, hd⟩
    cases a with
    | nil => exact List.noConfusion hs
    | cons x a2 => exact List.noConfusion hs
  | cons c rest =>
    have hL : dotPattern (c :: rest) = (!isSpaceChar c && scanDot rest) := rfl
    rw [hL, Bool.and_eq_true, Bool.not_eq_true', scanDot_iff]
    constructor
    · rintro ⟨hc, a, d, b, hs, ha, hd⟩
      refine ⟨c :: a, d, b, by simp [hs], by simp, ?_, hd⟩
      intro y hy
      rcases List.mem_cons.mp hy with rfl | hy2
      · exact hc
      · exact ha y hy2
    · rintro ⟨a, d, b, hs, hne, ha, hd⟩
      cases a with
      | nil => exact absurd rfl hne
      | cons x a2 =>
        rw [List.cons_append] at hs
        injection hs with h1 h2
        subst h1
        exact ⟨ha c (by simp), a2, d, b, h2, fun y hy => ha y (by simp [hy]), hd⟩

theorem scheme_disjoint (s : Str) :
    matchCaseless httpPat s = none ∨ matchCaseless httpsPat s = none := by
  by_contra hcon
  push_neg at hcon
  obtain ⟨h1, h2⟩ := hcon
  obtain ⟨r1, e1⟩ := Option.ne_none_iff_exists'.mp h1
  obtain ⟨r2, e2⟩ := Option.ne_none_iff_exists'.mp h2
  obtain ⟨p1, hs1, hm1⟩ := (matchCaseless_iff _ _ _).mp e1
  obtain ⟨p2, hs2, hm2⟩ := (matchCaseless_iff _ _ _).mp e2
  have hmap : httpPat ++ r1.map Char.toLower = httpsPat ++ r2.map Char.toLower := by
    calc httpPat ++ r1.map Char.toLower
        = p1.map Char.toLower ++ r1.map Char.toLower := by rw [hm1]
      _ = (p1 ++ r1).map Char.toLower := (List.map_append _ _ _).symm
      _ = s.map Char.toLower := by rw [← hs1]
      _ = (p2 ++ r2).map Char.toLower := by rw [← hs2]
      _ = p2.map Char.toLower ++ r2.map Char.toLower := List.map_append _ _ _
      _ = httpsPat ++ r2.map Char.toLower := by rw [hm2]
  have htake := congrArg (List.take 5) hmap
  rw [List.take_append_of_le_length (by decide),
    List.take_append_of_le_length (by decide)] at htake
  exact absurd htake (by decide)

theorem regexHttpMatch_iff (s : Str) :
    regexHttpMatch s = true ↔
      (∃ pre rest, s = pre ++ rest ∧ pre.map Char.toLower = httpPat ∧ dotSpec rest) ∨
      (∃ pre rest, s = pre ++ rest ∧ pre.map Char.toLower = httpsPat ∧ dotSpec rest) := by
  unfold regexHttpMatch
  cases h1 : matchCaseless httpPat s with
  | some r =>
    rw [dotPattern_iff]
    constructor
    · intro hd
      obtain ⟨pre, hs, hm⟩ := (matchCaseless_iff _ _ _).mp h1
      exact Or.inl ⟨pre, r, hs, hm, hd⟩
    · rintro (⟨pre, rest, hs, hm, hd⟩ | ⟨pre, rest, hs, hm, hd⟩)
      · have h1b : matchCaseless httpPat s = some rest :=
          (matchCaseless_iff _ _ _).mpr ⟨pre, hs, hm⟩
        rw [h1] at h1b
        injection h1b with hr
        rw [hr]
        exact hd
      · have h2b : matchCaseless httpsPat s = some rest :=
          (matchCaseless_iff _ _ _).mpr ⟨pre, hs, hm⟩
        rcases scheme_disjoint s with hno | hno
        · rw [h1] at hno
          exact Option.noConfusion hno
        · rw [h2b] at hno
          exact Option.noConfusion hno
  | none =>
    cases h2 : matchCaseless httpsPat s with
    | some r =>
      rw [dotPattern_iff]
      constructor
      · intro hd
        obtain ⟨pre, hs, hm⟩ := (matchCaseless_iff _ _ _).mp h2
        exact Or.inr ⟨pre, r, hs, hm, hd⟩
      · rintro (⟨pre, rest, hs, hm, hd⟩ | ⟨pre, rest, hs, hm, hd⟩)
        · have h1b : matchCaseless httpPat s = some rest :=
            (matchCaseless_iff _ _ _).mpr ⟨pre, hs, hm⟩
          rw [h1] at h1b
          exact Option.noConfusion h1b
        · have h2b : matchCaseless httpsPat s = some rest :=
            (matchCaseless_iff _ _ _).mpr ⟨pre, hs, hm⟩
          rw [h2] at h2b
          injection h2b with hr
          rw [hr]
          exact hd
    | none =>
      refine iff_of_false (by simp) ?_
      rintro (⟨pre, rest, hs, hm, hd⟩ | ⟨pre, rest, hs, hm, hd⟩)
      · have h1b : matchCaseless httpPat s = some rest :=
          (matchCaseless_iff _ _ _).mpr ⟨pre, hs, hm⟩
        rw [h1] at h1b
        exact Option.noConfusion h1b
      · have h2b : matchCaseless httpsPat s = some rest :=
          (matchCaseless_iff _ _ _).mpr ⟨pre, hs, hm⟩
        rw [h2] at h2b
        exact Option.noConfusion h2b

/-- Claim C6: `is_url` holds exactly when the stripped text matches the
case-insensitive regex `^https?://\S+\.\S+` (read declaratively: a
case-insensitive scheme `http://` or `https://` followed by a non-empty
non-space run, a dot and a non-space character), or the stripped text
literally starts with `http://` or `https://`; both disjuncts are
evaluated and either suffices.  `is_url` is a total function with no
failure mode by construction. -/
theorem is_url_spec (t : Str) :
    is_url t = true ↔
      (((∃ pre rest, pyStrip t = pre ++ rest ∧
            pre.map Char.toLower = httpPat ∧ dotSpec rest) ∨
        (∃ pre rest, pyStrip t = pre ++ rest ∧
            pre.map Char.toLower = httpsPat ∧ dotSpec rest)) ∨
       ((∃ r, pyStrip t = httpPat ++ r) ∨ (∃ r, pyStrip t = httpsPat ++ r))) := by
  unfold is_url
  rw [Bool.or_eq_true, Bool.or_eq_true, regexHttpMatch_iff,
    beginsWith_iff httpPat (pyStrip t), beginsWith_iff httpsPat (pyStrip t)]

theorem stripLeft_stripLeft (s : Str) : stripLeft (stripLeft s) = stripLeft s := by
  induction s with
  | nil => rfl
  | cons c t ih =>
    by_cases hc : isSpaceChar c = true
    · have he : stripLeft (c :: t) = stripLeft t := by
        unfold stripLeft
        rw [List.dropWhile_cons, if_pos hc]
      rw [he]
      exact ih
    · have he : stripLeft (c :: t) = c :: t := by
        rw [stripLeft, List.dropWhile_cons, if_neg hc]
      rw [he]
      exact he

theorem stripLeft_head (s : Str) :
    ∀ c t, stripLeft s = c :: t → isSpaceChar c = false := by
  induction s with
  | nil =>
    intro c t h
    exact List.noConfusion h
  | cons x xs ih =>
    intro c t h
    by_cases hx : isSpaceChar x = true
    · rw [stripLeft, List.dropWhile_cons, if_pos hx] at h
      exact ih c t h
    · rw [stripLeft, List.dropWhile_cons, if_neg hx] at h
      injection h with h1 h2
      subst h1
      cases hxx : isSpaceChar x
      · rfl
      · exact absurd hxx hx

theorem stripLeft_of_head (s : Str)
    (h : ∀ c t, s = c :: t → isSpaceChar c = false) : stripLeft s = s := by
  cases s with
  | nil => rfl
  | cons c t =>
    rw [stripLeft, List.dropWhile_cons, if_neg (by simp [h c t rfl])]

theorem stripLeft_append_last {c : Char} (hc : isSpaceChar c = false) :
    ∀ xs : Str, ∃ ys : Str, stripLeft (xs ++ [c]) = ys ++ [c] := by
  intro xs
  induction xs with
  | nil =>
    refine ⟨[], ?_⟩
    rw [List.nil_append, stripLeft, List.dropWhile_cons, if_neg (by simp [hc])]
  | cons x xt ih =>
    by_cases hx : isSpaceChar x = true
    · obtain ⟨ys, hy⟩ := ih
      exact ⟨ys, by rw [List.cons_append, stripLeft, List.dropWhile_cons,
        if_pos hx]; exact hy⟩
    · exact ⟨x :: xt, by rw [List.cons_append, stripLeft, List.dropWhile_cons,
        if_neg hx]⟩

theorem stripRight_head (s : Str)
    (h : ∀ c t, s = c :: t → isSpaceChar c = false) :
    ∀ c t, stripRight s = c :: t → isSpaceChar c = false := by
  cases s with
  | nil =>
    intro c t hh
    exact List.noConfusion hh
  | cons x xs =>
    have hx : isSpaceChar x = false := h x xs rfl
    obtain ⟨ys, hy⟩ := stripLeft_append_last hx xs.reverse
    intro c t hh
    rw [stripRight, show (x :: xs).reverse = xs.reverse ++ [x] by simp,
      hy, List.reverse_append] at hh
    simp only [List.reverse_cons, List.reverse_nil, List.nil_append,
      List.singleton_append] at hh
    injection hh with h1 h2
    subst h1
    exact hx

theorem stripRight_stripRight (s : Str) :
    stripRight (stripRight s) = stripRight s := by
  unfold stripRight
  rw [List.reverse_reverse, stripLeft_stripLeft]

theorem pyStrip_idem (s : Str) : pyStrip (pyStrip s) = pyStrip s := by
  unfold pyStrip
  have h1 : ∀ c t, stripLeft s = c :: t → isSpaceChar c = false := stripLeft_head s
  have h2 : ∀ c t, stripRight (stripLeft s) = c :: t → isSpaceChar c = false :=
    stripRight_head _ h1
  rw [stripLeft_of_head _ h2, stripRight_stripRight]

theorem is_url_pyStrip (t : Str) : is_url (pyStrip t) = is_url t := by
  unfold is_url
  rw [pyStrip_idem]

theorem is_url_false_no_scheme {m : Str} (h : is_url m = false) :
    beginsWith httpPat (pyStrip m) = false ∧
    beginsWith httpsPat (pyStrip m) = false := by
  unfold is_url at h
  rcases Bool.or_eq_false_iff.mp h with ⟨-, h2⟩
  exact Bool.or_eq_false_iff.mp h2

theorem format_not_url (ts m user host : Str) (h : is_url m = false) :
    format_siyuan_content ts m user host =
      "## input via telegram\n**SUBMIT:** ".toList ++ ts ++ "\n**BY:** ".toList
        ++ user ++ '@' :: host ++ "\n\n```\n".toList ++ m ++ "\n```".toList := by
  unfold format_siyuan_content
  rw [if_neg]
  rw [is_url_pyStrip, h]
  simp

theorem ptm_not_url (co : Collab) (m user host : Str) (h : is_url m = false) :
    process_telegram_message co m user host =
      ((push_to_siyuan co (format_siyuan_content co.now_minute m user host)
          (some ("telegram ".toList ++ co.now_minute))).1,
       (format_siyuan_content co.now_minute m user host,
        "telegram ".toList ++ co.now_minute)) := by
  obtain ⟨h1, h2⟩ := is_url_false_no_scheme h
  have ht : ptmTitle co m = "telegram ".toList ++ co.now_minute := by
    unfold ptmTitle
    rw [h1, h2]
    simp
  unfold process_telegram_message
  rw [ht]

theorem gs_core_fetchCalls (co : Collab) (t : Str) (b : Bool) :
    (gs_core co t b).2.fetchCalls = 0 := by
  unfold gs_core
  by_cases h : credentialMissing co.env.OPENAI_TOKEN = true
  · rw [if_pos h]
  · rw [if_neg h]
    cases hai : co.ai (truncate_for_openai t) b <;> rfl

theorem gs_core_aiCalls (co : Collab) (t : Str) (b : Bool) :
    (gs_core co t b).2.aiCalls ≤ 1 := by
  unfold gs_core
  by_cases h : credentialMissing co.env.OPENAI_TOKEN = true
  · rw [if_pos h]
    exact Nat.zero_le 1
  · rw [if_neg h]
    cases hai : co.ai (truncate_for_openai t) b <;> exact le_refl 1

theorem gs_scraped (co : Collab) (t : Str) :
    generate_summary co t true = gs_core co t true := by
  unfold generate_summary
  simp

theorem gs_aiCalls (co : Collab) (t : Str) (b : Bool) :
    (generate_summary co t b).2.aiCalls ≤ 1 := by
  unfold generate_summary
  by_cases hg : (!b && is_url (pyStrip t)) = true
  · rw [if_pos hg]
    cases hf : co.fetch (pyStrip t) with
    | mk ok content =>
      cases ok
      · exact gs_core_aiCalls co t false
      · exact gs_core_aiCalls co content true
  · rw [if_neg hg]
    exact gs_core_aiCalls co t b

theorem gsrec_scraped (n : Nat) (co : Collab) (t : Str) :
    generate_summary_rec (n + 1) co t true = some (gs_core co t true) := by
  unfold generate_summary_rec
  simp

/-- Claim C8: the enricher terminates with recursion depth at most two
(fuel 2 is always enough for the faithful fueled recursion, and every
deeper fuel agrees), the fetch collaborator runs at most once per
invocation and never when `alreadyFetched` is set, and on fetch failure
the raw text is kept as working content and control still reaches the
summarization stage, whose input is the truncated original text whenever
the AI credential is present. -/
theorem gs_fetch_once_and_depth :
    (∀ n co t b, generate_summary_rec (n + 2) co t b = some (generate_summary co t b)) ∧
    (∀ co t b, (generate_summary co t b).2.fetchCalls ≤ 1) ∧
    (∀ co t, (generate_summary co t true).2.fetchCalls = 0) ∧
    (∀ co t, is_url (pyStrip t) = true → (co.fetch (pyStrip t)).1 = false →
      generate_summary co t false =
        ((gs_core co t false).1,
         { (gs_core co t false).2 with
             fetchCalls := (gs_core co t false).2.fetchCalls + 1 }) ∧
      (credentialMissing co.env.OPENAI_TOKEN = false →
        (generate_summary co t false).2.aiInput =
          some (truncate_for_openai t, false))) := by
  refine ⟨?_, ?_, ?_, ?_⟩
  · intro n co t b
    cases b with
    | true =>
      rw [gsrec_scraped, gs_scraped]
    | false =>
      unfold generate_summary_rec generate_summary
      by_cases hg : (!false && is_url (pyStrip t)) = true
      · rw [if_pos hg, if_pos hg]
        cases hf : co.fetch (pyStrip t) with
        | mk ok content =>
          cases ok
          · rfl
          · dsimp only
            rw [gsrec_scraped]
            rfl
      · rw [if_neg hg, if_neg hg]
  · intro co t b
    unfold generate_summary
    by_cases hg : (!b && is_url (pyStrip t)) = true
    · rw [if_pos hg]
      cases hf : co.fetch (pyStrip t) with
      | mk ok content =>
        cases ok
        · simp [gs_core_fetchCalls]
        · simp [gs_core_fetchCalls]
    · rw [if_neg hg]
      rw [gs_core_fetchCalls]
      exact Nat.zero_le 1
  · intro co t
    rw [gs_scraped, gs_core_fetchCalls]
  · intro co t hu hf
    have hg : (!false && is_url (pyStrip t)) = true := by simp [hu]
    cases hfe : co.fetch (pyStrip t) with
    | mk ok content =>
      rw [hfe] at hf
      simp only at hf
      subst hf
      constructor
      · unfold generate_summary
        rw [if_pos hg, hfe]
      · intro hcred
        unfold generate_summary
        rw [if_pos hg, hfe]
        simp only
        unfold gs_core
        rw [if_neg (by simp [hcred])]
        cases hai : co.ai (truncate_for_openai t) false <;> rfl

/-- Witness for `gs_fetch_once_and_depth` at a concrete URL whose fetch
fails. -/
theorem gs_fetch_once_and_depth_witness :
    is_url (pyStrip "http://a.b".toList) = true ∧
    (coNoAI.fetch (pyStrip "http://a.b".toList)).1 = false ∧
    generate_summary coNoAI "http://a.b".toList false =
      ((gs_core coNoAI "http://a.b".toList false).1,
       { (gs_core coNoAI "http://a.b".toList false).2 with
           fetchCalls := (gs_core coNoAI "http://a.b".toList false).2.fetchCalls + 1 }) :=
  ⟨by decide, rfl,
    (gs_fetch_once_and_depth.2.2.2 coNoAI "http://a.b".toList (by decide) rfl).1⟩

theorem mkTrace_replies (b ai : Bool) (st ct : Option Str) (g a f : Nat)
    (pa : Option (Str × Str)) (pt : Bool) :
    (mkTrace b ai st ct g a f pa pt).replies = [notifyReply b ai st ct] := rfl

theorem mkTrace_crashed (b ai : Bool) (st ct : Option Str) (g a f : Nat)
    (pa : Option (Str × Str)) (pt : Bool) :
    (mkTrace b ai st ct g a f pa pt).crashed = false := rfl

theorem mkTrace_success (b ai : Bool) (st ct : Option Str) (g a f : Nat)
    (pa : Option (Str × Str)) (pt : Bool) :
    (mkTrace b ai st ct g a f pa pt).success = b := rfl

theorem mkTrace_ai_used (b ai : Bool) (st ct : Option Str) (g a f : Nat)
    (pa : Option (Str × Str)) (pt : Bool) :
    (mkTrace b ai st ct g a f pa pt).ai_used = ai := rfl

theorem mkTrace_summary_text (b ai : Bool) (st ct : Option Str) (g a f : Nat)
    (pa : Option (Str × Str)) (pt : Bool) :
    (mkTrace b ai st ct g a f pa pt).summary_text = st := rfl

theorem mkTrace_custom_title (b ai : Bool) (st ct : Option Str) (g a f : Nat)
    (pa : Option (Str × Str)) (pt : Bool) :
    (mkTrace b ai st ct g a f pa pt).custom_title = ct := rfl

theorem mkTrace_gsCalls (b ai : Bool) (st ct : Option Str) (g a f : Nat)
    (pa : Option (Str × Str)) (pt : Bool) :
    (mkTrace b ai st ct g a f pa pt).gsCalls = g := rfl

theorem mkTrace_aiCalls (b ai : Bool) (st ct : Option Str) (g a f : Nat)
    (pa : Option (Str × Str)) (pt : Bool) :
    (mkTrace b ai st ct g a f pa pt).aiCalls = a := rfl

theorem mkTrace_fetchCalls (b ai : Bool) (st ct : Option Str) (g a f : Nat)
    (pa : Option (Str × Str)) (pt : Bool) :
    (mkTrace b ai st ct g a f pa pt).fetchCalls = f := rfl

theorem mkTrace_pushArgs (b ai : Bool) (st ct : Option Str) (g a f : Nat)
    (pa : Option (Str × Str)) (pt : Bool) :
    (mkTrace b ai st ct g a f pa pt).pushArgs = pa := rfl

theorem mkTrace_ptmCalled (b ai : Bool) (st ct : Option Str) (g a f : Nat)
    (pa : Option (Str × Str)) (pt : Bool) :
    (mkTrace b ai st ct g a f pa pt).ptmCalled = pt := rfl

theorem crashTrace_crashed (h : Str) (t : GSTrace) :
    (crashTrace h t).crashed = true := rfl

theorem save_command_ne_nil (co : Collab) (args : List Str) (user : Str)
    (hargs : args ≠ []) :
    save_command co args user = save_pipeline co (joinSpace args) user := by
  unfold save_command
  rw [if_neg hargs]

theorem pipeline_cases (co : Collab) (m user : Str) :
    (∃ h tr, save_pipeline co m user = crashTrace h tr) ∨
    (∃ b h g a f pa,
      save_pipeline co m user = mkTrace b true (some h) (some h) g a f pa false) ∨
    (∃ b g a f pa, save_pipeline co m user
      = mkTrace b false none (some "URL bookmark".toList) g a f pa false) ∨
    (∃ b g a f pa, save_pipeline co m user = mkTrace b false none none g a f pa true) := by
  unfold save_pipeline
  split
  · split
    · exact Or.inr (Or.inl ⟨_, _, _, _, _, _, rfl⟩)
    · exact Or.inl ⟨_, _, rfl⟩
    · split
      · exact Or.inr (Or.inr (Or.inl ⟨_, _, _, _, _, rfl⟩))
      · exact Or.inr (Or.inr (Or.inr ⟨_, _, _, _, _, rfl⟩))
  · split
    · exact Or.inr (Or.inr (Or.inl ⟨_, _, _, _, _, rfl⟩))
    · exact Or.inr (Or.inr (Or.inr ⟨_, _, _, _, _, rfl⟩))

/-- Claim C1 (amended): in every completed (non-crashed) run, the single
reply is: the failure text when forwarding failed; the success text
templated with the AI headline when AI was used and the headline is
non-empty; the success text templated with the fixed string
`URL bookmark` — not with the forwarded `URL: ` title — in the non-AI URL
case; and the plain success text otherwise (including the empty-headline
AI case and all `process_telegram_message` cases). -/
theorem save_notifier_amended (co : Collab) (args : List Str) (user : Str)
    (hargs : args ≠ []) (hc : (save_command co args user).crashed = false) :
    ((save_command co args user).success = false →
      (save_command co args user).replies = [Reply.sendFailed]) ∧
    ((save_command co args user).success = true →
      (save_command co args user).ai_used = true →
      ∃ h, (save_command co args user).summary_text = some h ∧
        (h ≠ [] → (save_command co args user).replies = [Reply.successWithTitle h]) ∧
        (h = [] → (save_command co args user).replies = [Reply.successPlain])) ∧
    ((save_command co args user).success = true →
      (save_command co args user).ai_used = false →
      (save_command co args user).custom_title = some "URL bookmark".toList →
      (save_command co args user).replies =
        [Reply.successWithTitle "URL bookmark".toList]) ∧
    ((save_command co args user).success = true →
      (save_command co args user).ai_used = false →
      (save_command co args user).custom_title = none →
      (save_command co args user).replies = [Reply.successPlain]) := by
  rw [save_command_ne_nil co args user hargs] at hc ⊢
  rcases pipeline_cases co (joinSpace args) user with
    ⟨h, tr, he⟩ | ⟨b, h, g, a, f, pa, he⟩ | ⟨b, g, a, f, pa, he⟩ | ⟨b, g, a, f, pa, he⟩
  · rw [he, crashTrace_crashed] at hc
    exact absurd hc (by simp)
  · rw [he]
    refine ⟨?_, ?_, ?_, ?_⟩
    · intro hs
      rw [mkTrace_success] at hs
      subst hs
      rw [mkTrace_replies]
      rfl
    · intro hs hai
      rw [mkTrace_success] at hs
      subst hs
      refine ⟨h, mkTrace_summary_text .., ?_, ?_⟩
      · intro hne
        rw [mkTrace_replies]
        cases h with
        | nil => exact absurd rfl hne
        | cons x xs => rfl
      · intro heq
        subst heq
        rw [mkTrace_replies]
        rfl
    · intro hs hai
      rw [mkTrace_ai_used] at hai
      exact absurd hai (by simp)
    · intro hs hai
      rw [mkTrace_ai_used] at hai
      exact absurd hai (by simp)
  · rw [he]
    refine ⟨?_, ?_, ?_, ?_⟩
    · intro hs
      rw [mkTrace_success] at hs
      subst hs
      rw [mkTrace_replies]
      rfl
    · intro hs hai
      rw [mkTrace_ai_used] at hai
      exact absurd hai (by simp)
    · intro hs hai hct
      rw [mkTrace_success] at hs
      subst hs
      rw [mkTrace_replies]
      rfl
    · intro hs hai hct
      rw [mkTrace_custom_title] at hct
      exact absurd hct (by simp)
  · rw [he]
    refine ⟨?_, ?_, ?_, ?_⟩
    · intro hs
      rw [mkTrace_success] at hs
      subst hs
      rw [mkTrace_replies]
      rfl
    · intro hs hai
      rw [mkTrace_ai_used] at hai
      exact absurd hai (by simp)
    · intro hs hai hct
      rw [mkTrace_custom_title] at hct
      exact absurd hct (by simp)
    · intro hs hai hct
      rw [mkTrace_success] at hs
      subst hs
      rw [mkTrace_replies]
      rfl

/-- Witness for `save_notifier_amended`: a concrete short message whose
forward fails yields exactly the failure reply. -/
theorem save_notifier_amended_witness :
    (["x".toList] : List Str) ≠ [] ∧
    (save_command coFail ["x".toList] []).crashed = false ∧
    (save_command coFail ["x".toList] []).success = false ∧
    (save_command coFail ["x".toList] []).replies = [Reply.sendFailed] :=
  ⟨by decide, rfl, rfl,
    (save_notifier_amended coFail ["x".toList] [] (by decide) rfl).1 rfl⟩

/-- Counterexample to claim C1 as stated: for the short URL
`http://a.b` with the summarizer failing and the forward succeeding, the
title forwarded to the inbox is `URL: http://a.b`, but the reply is
templated with the fixed string `URL bookmark`, not with that forwarded
title. -/
theorem save_reply_url_title_counterexample :
    (save_command coNoAI ["http://a.b".toList] []).success = true ∧
    (save_command coNoAI ["http://a.b".toList] []).ai_used = false ∧
    (save_command coNoAI ["http://a.b".toList] []).pushArgs = some
      (format_siyuan_content coNoAI.now_minute "http://a.b".toList [] coNoAI.hostname,
       "URL: http://a.b".toList) ∧
    (save_command coNoAI ["http://a.b".toList] []).replies =
      [Reply.successWithTitle "URL bookmark".toList] ∧
    (save_command coNoAI ["http://a.b".toList] []).replies ≠
      [Reply.successWithTitle "URL: http://a.b".toList] := by
  refine ⟨rfl, rfl, ?_, rfl, by decide⟩
  rfl

/-- Claim C3, failing input: a 129-character non-URL message with both
credentials present, where the summarizer JSON parses to an object that
contains `h` but lacks `s`.  `generate_summary` reports success (only
`result['h']` is touched inside its `try`), and `save_command` then
evaluates `summary_result['s']` outside any `try` (functions.py line
337): the `KeyError` propagates uncaught and no reply is sent, so the run
does not produce exactly one user-visible outcome. -/
theorem save_missing_summary_key_crash :
    (save_command coKeyless [List.replicate 129 'a'] []).crashed = true ∧
    (save_command coKeyless [List.replicate 129 'a'] []).replies = [] := by
  set_option maxRecDepth 8000 in exact ⟨rfl, rfl⟩

/-- Claim C4: whenever the enrichment stage was triggered and the
summarizer capability reports failure (any failure, the missing
credential included), the forwarded payload is produced entirely by the
plain formatter `format_siyuan_content`; the title is the plain `URL: `
title for URLs and the `telegram <timestamp>` title otherwise; the save
is not aborted (a payload is handed to the forwarder), the run completes,
the enricher ran exactly once, and the summarizer collaborator was
consulted at most once (no retry). -/
theorem save_degrade_law (co : Collab) (args : List Str) (user : Str)
    (hargs : args ≠ [])
    (htrig : (decide ((joinSpace args).length > 128) || is_url (joinSpace args)) = true)
    (e : Str) (hgs : (generate_summary co (joinSpace args) false).1 = Sum.inr e) :
    (save_command co args user).ai_used = false ∧
    (save_command co args user).crashed = false ∧
    (save_command co args user).gsCalls = 1 ∧
    (save_command co args user).aiCalls ≤ 1 ∧
    (save_command co args user).pushArgs = some
      (format_siyuan_content co.now_minute (joinSpace args) user co.hostname,
       if is_url (joinSpace args) then urlTitleOf (joinSpace args)
       else "telegram ".toList ++ co.now_minute) ∧
    urlTitleOf (joinSpace args) =
      "URL: ".toList ++ (pyStrip (joinSpace args)).take 30 ++
        (if (pyStrip (joinSpace args)).length > 30 then "...".toList else []) := by
  rw [save_command_ne_nil co args user hargs]
  have hai : (generate_summary co (joinSpace args) false).2.aiCalls ≤ 1 :=
    gs_aiCalls co (joinSpace args) false
  unfold save_pipeline
  rw [if_pos htrig]
  rcases hgg : generate_summary co (joinSpace args) false with ⟨res, tr⟩
  rw [hgg] at hgs hai
  simp only at hgs hai
  subst hgs
  dsimp only
  by_cases hu : is_url (joinSpace args) = true
  · rw [if_pos hu, if_pos hu]
    exact ⟨mkTrace_ai_used .., mkTrace_crashed .., mkTrace_gsCalls ..,
      le_of_eq_of_le (mkTrace_aiCalls ..) hai, mkTrace_pushArgs .., rfl⟩
  · rw [if_neg hu, if_neg hu]
    have hufalse : is_url (joinSpace args) = false := Bool.eq_false_iff.mpr hu
    refine ⟨mkTrace_ai_used .., mkTrace_crashed .., mkTrace_gsCalls ..,
      le_of_eq_of_le (mkTrace_aiCalls ..) hai, ?_, rfl⟩
    have hfield : (ptmSaveBranch co (joinSpace args) user 1 tr.aiCalls
        tr.fetchCalls).pushArgs =
        some (process_telegram_message co (joinSpace args) user co.hostname).2 := rfl
    rw [hfield, ptm_not_url co (joinSpace args) user co.hostname hufalse]

/-- Witness for `save_degrade_law`: a concrete URL with the AI credential
missing degrades to the plain URL payload. -/
theorem save_degrade_law_witness :
    (["http://a.b".toList] : List Str) ≠ [] ∧
    (decide ((joinSpace ["http://a.b".toList]).length > 128)
      || is_url (joinSpace ["http://a.b".toList])) = true ∧
    (generate_summary coNoAI (joinSpace ["http://a.b".toList]) false).1 =
      Sum.inr "OpenAI API key not configured".toList ∧
    (save_command coNoAI ["http://a.b".toList] []).ai_used = false ∧
    (save_command coNoAI ["http://a.b".toList] []).gsCalls = 1 :=
  ⟨by decide, by decide, rfl,
    (save_degrade_law coNoAI ["http://a.b".toList] [] (by decide) (by decide)
      "OpenAI API key not configured".toList rfl).1,
    (save_degrade_law coNoAI ["http://a.b".toList] [] (by decide) (by decide)
      "OpenAI API key not configured".toList rfl).2.2.1⟩

/-- Claim C7: the enrichment stage (`generate_summary`) runs exactly once
when the joined text is a URL or longer than 128 characters and never
otherwise; and an untriggered run uses no AI, performs no fetch and no
summarizer call, completes, delegates to `process_telegram_message`, and
forwards the plain text template whose fenced block carries the raw
joined text, under the `telegram <timestamp>` title. -/
theorem save_enrichment_trigger (co : Collab) (args : List Str) (user : Str)
    (hargs : args ≠ []) :
    ((save_command co args user).gsCalls =
      if (decide ((joinSpace args).length > 128) || is_url (joinSpace args)) = true
      then 1 else 0) ∧
    ((decide ((joinSpace args).length > 128) || is_url (joinSpace args)) = false →
      (save_command co args user).ai_used = false ∧
      (save_command co args user).aiCalls = 0 ∧
      (save_command co args user).fetchCalls = 0 ∧
      (save_command co args user).crashed = false ∧
      (save_command co args user).ptmCalled = true ∧
      (save_command co args user).pushArgs = some
        ("## input via telegram\n**SUBMIT:** ".toList ++ co.now_minute
          ++ "\n**BY:** ".toList ++ user ++ '@' :: co.hostname
          ++ "\n\n```\n".toList ++ joinSpace args ++ "\n```".toList,
         "telegram ".toList ++ co.now_minute)) := by
  rw [save_command_ne_nil co args user hargs]
  by_cases htrig :
      (decide ((joinSpace args).length > 128) || is_url (joinSpace args)) = true
  · constructor
    · rw [if_pos htrig]
      unfold save_pipeline
      rw [if_pos htrig]
      rcases hgg : generate_summary co (joinSpace args) false with ⟨res, tr⟩
      cases res with
      | inl p =>
        rcases p with ⟨h, s⟩
        cases s with
        | none => rfl
        | some sv => exact mkTrace_gsCalls ..
      | inr err =>
        dsimp only
        by_cases hu : is_url (joinSpace args) = true
        · rw [if_pos hu]
          exact mkTrace_gsCalls ..
        · rw [if_neg hu]
          exact mkTrace_gsCalls ..
    · intro hfalse
      rw [hfalse] at htrig
      exact absurd htrig (by simp)
  · have hfalse : (decide ((joinSpace args).length > 128)
        || is_url (joinSpace args)) = false := Bool.eq_false_iff.mpr htrig
    have hu : is_url (joinSpace args) = false :=
      (Bool.or_eq_false_iff.mp hfalse).2
    have hscheme := is_url_false_no_scheme hu
    unfold save_pipeline
    rw [if_neg htrig, if_neg (by rw [hu]; simp)]
    constructor
    · rw [if_neg (by rw [hfalse]; simp)]
      exact mkTrace_gsCalls ..
    · intro _
      refine ⟨mkTrace_ai_used .., mkTrace_aiCalls .., mkTrace_fetchCalls ..,
        mkTrace_crashed .., mkTrace_ptmCalled .., ?_⟩
      have hfield : (ptmSaveBranch co (joinSpace args) user 0 0 0).pushArgs =
          some (process_telegram_message co (joinSpace args) user co.hostname).2 := rfl
      rw [hfield, ptm_not_url co (joinSpace args) user co.hostname hu,
        format_not_url co.now_minute (joinSpace args) user co.hostname hu]

/-- Witness for `save_enrichment_trigger`: the short text `hi` does not
trigger enrichment and is forwarded by `process_telegram_message`. -/
theorem save_enrichment_trigger_witness :
    (["hi".toList] : List Str) ≠ [] ∧
    (decide ((joinSpace ["hi".toList]).length > 128)
      || is_url (joinSpace ["hi".toList])) = false ∧
    (save_command coNoAI ["hi".toList] []).aiCalls = 0 ∧
    (save_command coNoAI ["hi".toList] []).ptmCalled = true :=
  ⟨by decide, by decide,
    ((save_enrichment_trigger coNoAI ["hi".toList] [] (by decide)).2
      (by decide)).2.1,
    ((save_enrichment_trigger coNoAI ["hi".toList] [] (by decide)).2
      (by decide)).2.2.2.2.1⟩

/-- Claim C9: `process_telegram_message` is reached only when `is_url` is
false on the joined text; `is_url` being false forces both `startswith`
scheme tests inside it to be false (they are disjuncts of `is_url`), so
its URL branch is unreachable from `save_command` and the generated title
is always `telegram <timestamp>`. -/
theorem save_ptm_title (co : Collab) (args : List Str) (user : Str)
    (hargs : args ≠ []) :
    ((save_command co args user).ptmCalled = true →
      is_url (joinSpace args) = false) ∧
    (is_url (joinSpace args) = false →
      beginsWith httpPat (pyStrip (joinSpace args)) = false ∧
      beginsWith httpsPat (pyStrip (joinSpace args)) = false) ∧
    ((save_command co args user).ptmCalled = true →
      (save_command co args user).pushArgs = some
        (format_siyuan_content co.now_minute (joinSpace args) user co.hostname,
         "telegram ".toList ++ co.now_minute)) := by
  rw [save_command_ne_nil co args user hargs]
  have key : (save_pipeline co (joinSpace args) user).ptmCalled = true →
      is_url (joinSpace args) = false ∧
      (save_pipeline co (joinSpace args) user).pushArgs = some
        (format_siyuan_content co.now_minute (joinSpace args) user co.hostname,
         "telegram ".toList ++ co.now_minute) := by
    unfold save_pipeline
    split
    · split
      · intro hp
        exact Bool.noConfusion hp
      · intro hp
        exact Bool.noConfusion hp
      · split
        · intro hp
          exact Bool.noConfusion hp
        · next hu =>
          intro _
          have hufalse : is_url (joinSpace args) = false := Bool.eq_false_iff.mpr hu
          refine ⟨hufalse, ?_⟩
          have hfield : ∀ g a f, (ptmSaveBranch co (joinSpace args) user g a f).pushArgs =
              some (process_telegram_message co (joinSpace args) user co.hostname).2 :=
            fun g a f => rfl
          rw [hfield, ptm_not_url co (joinSpace args) user co.hostname hufalse]
    · split
      · intro hp
        exact Bool.noConfusion hp
      · next hu =>
        intro _
        have hufalse : is_url (joinSpace args) = false := Bool.eq_false_iff.mpr hu
        refine ⟨hufalse, ?_⟩
        have hfield : ∀ g a f, (ptmSaveBranch co (joinSpace args) user g a f).pushArgs =
            some (process_telegram_message co (joinSpace args) user co.hostname).2 :=
          fun g a f => rfl
        rw [hfield, ptm_not_url co (joinSpace args) user co.hostname hufalse]
  exact ⟨fun hp => (key hp).1, fun hu => is_url_false_no_scheme hu,
    fun hp => (key hp).2⟩

/-- Witness for `save_ptm_title`: the non-URL text `hello` goes through
`process_telegram_message` with the `telegram <timestamp>` title. -/
theorem save_ptm_title_witness :
    (save_command coNoAI ["hello".toList] []).ptmCalled = true ∧
    (save_command coNoAI ["hello".toList] []).pushArgs = some
      (format_siyuan_content coNoAI.now_minute (joinSpace ["hello".toList]) []
        coNoAI.hostname,
       "telegram ".toList ++ coNoAI.now_minute) :=
  ⟨rfl, (save_ptm_title coNoAI ["hello".toList] [] (by decide)).2.2 rfl⟩

theorem splitAux_wf : ∀ (s : Str) (acc : Str),
    (∀ c ∈ acc, isSpaceChar c = false) →
    ∀ w ∈ splitAux s acc, w ≠ [] ∧ ∀ c ∈ w, isSpaceChar c = false := by
  intro s
  induction s with
  | nil =>
    intro acc hacc w hw
    by_cases he : acc.isEmpty = true
    · rw [splitAux, if_pos he] at hw
      exact absurd hw (List.not_mem_nil w)
    · rw [splitAux, if_neg he] at hw
      rcases List.mem_singleton.mp hw with rfl
      refine ⟨?_, ?_⟩
      · intro hrev
        have : acc = [] := by simpa using congrArg List.reverse hrev
        rw [this] at he
        exact he rfl
      · intro c hc
        exact hacc c (List.mem_reverse.mp hc)
  | cons x xs ih =>
    intro acc hacc w hw
    by_cases hx : isSpaceChar x = true
    · rw [splitAux, if_pos hx] at hw
      by_cases he : acc.isEmpty = true
      · rw [if_pos he] at hw
        exact ih [] (by intro c hc; exact absurd hc (List.not_mem_nil c)) w hw
      · rw [if_neg he] at hw
        rcases List.mem_cons.mp hw with rfl | hw2
        · refine ⟨?_, ?_⟩
          · intro hrev
            have : acc = [] := by simpa using congrArg List.reverse hrev
            rw [this] at he
            exact he rfl
          · intro c hc
            exact hacc c (List.mem_reverse.mp hc)
        · exact ih [] (by intro c hc; exact absurd hc (List.not_mem_nil c)) w hw2
    · rw [splitAux, if_neg hx] at hw
      refine ih (x :: acc) ?_ w hw
      intro c hc
      rcases List.mem_cons.mp hc with rfl | hc2
      · exact Bool.eq_false_iff.mpr hx
      · exact hacc c hc2

/-- Claim C10: the pipeline input is the space-join of `context.args`, so runs of
whitespace collapse — every token is non-empty and whitespace-free, two
submissions with equal token sequences drive the whole pipeline
identically, and a concrete raw text longer than 128 characters can
collapse to a joined text of at most 128 characters that does not trigger
enrichment. -/
theorem save_args_join :
    (∀ raw1 raw2 : Str, ∀ co user, argTokens raw1 = argTokens raw2 →
      save_command co (argTokens raw1) user = save_command co (argTokens raw2) user) ∧
    (∀ raw : Str, ∀ w ∈ argTokens raw, w ≠ [] ∧ ∀ c ∈ w, isSpaceChar c = false) ∧
    (∃ raw : Str, 128 < raw.length ∧ (joinSpace (argTokens raw)).length ≤ 128 ∧
      is_url (joinSpace (argTokens raw)) = false) := by
  refine ⟨fun raw1 raw2 co user h => by rw [h], ?_, ?_⟩
  · intro raw w hw
    exact splitAux_wf raw []
      (by intro c hc; exact absurd hc (List.not_mem_nil c)) w hw
  · refine ⟨'a' :: (List.replicate 128 ' ' ++ ['b']), ?_, ?_, ?_⟩
    · simp
    · set_option maxRecDepth 4000 in decide
    · set_option maxRecDepth 4000 in decide

/-- Witness for `save_args_join`: two raw texts with the same tokens but
different whitespace runs produce identical pipeline runs. -/
theorem save_args_join_witness :
    argTokens "a  b".toList = argTokens "a b".toList ∧
    save_command coNoAI (argTokens "a  b".toList) [] =
      save_command coNoAI (argTokens "a b".toList) [] :=
  ⟨by decide, save_args_join.1 "a  b".toList "a b".toList coNoAI [] (by decide)⟩
